import Mathlib

/-!
Shallow embedding of the shmem_executor repository and proofs about it.

The C++ sources modelled here are:
* `new_process_executor.hpp` — the process group registry (`process_context`),
  its `execute`, `twoway_execute`, `wait` and `set_variable` operations, and the
  `execute_active_message_before_main_if` bootstrap hook;
* `shmem_executor.hpp` — the bulk SPMD executor: `bulk_oneway_functor`,
  `twoway_bulk_execute_functor` (with its `cooperative_any` OR-reduction) and
  `twoway_bulk_execute`;
* `remote_ptr.hpp` — `remote_memory_accessor` and `remote_ptr`.

Straight-line effectful code is embedded as the list of externally visible
events it performs, in program order; registry state is embedded as explicit
state passing; remote memory is embedded as a byte-addressed store indexed by
processing element.
-/

namespace ShmemSpec

/-! ### Process group registry: environment assembly
Model of `process_context::set_variable` (new_process_executor.hpp, lines
246-269) and `process_context::environment_view` (lines 271-284).  An
environment is a list of `"NAME=value"` strings.  `set_variable` replaces the
first entry whose text starts with `NAME=` and appends a fresh entry when no
entry matches; `environment_view` is the null-terminated view handed to
`posix_spawnp`, modelled with `Option` (`none` is the terminating null). -/

/-- The bootstrap environment variable name used by `process_context::execute`. -/
def bootstrapVarName : String := "EXECUTE_ACTIVE_MESSAGE_BEFORE_MAIN"

/-- Whether an environment entry is a binding of the variable `varName`,
i.e. starts with the characters of `varName` followed by an equal sign (the
character-wise check performed by the lambda inside `set_variable`). -/
def bindsVariable (varName entry : String) : Bool :=
  List.isPrefixOf (varName.data ++ ['=']) entry.data

/-- Model of `process_context::set_variable`: replace the first entry binding
`varName`, or append a fresh binding when none exists. -/
def set_variable (env : List String) (varName value : String) : List String :=
  match env with
  | [] => [varName ++ "=" ++ value]
  | e :: rest =>
      if bindsVariable varName e then (varName ++ "=" ++ value) :: rest
      else e :: set_variable rest varName value

/-- Model of `process_context::environment_view`: the entries in order,
followed by the terminating null pointer. -/
def environment_view (env : List String) : List (Option String) :=
  env.map some ++ [none]

/-! ### Process group registry: `execute`
Model of `process_context::execute` (new_process_executor.hpp, lines 114-151).
It assembles the argument vector (launcher arguments, then this executable's
filename, then a null terminator) and the spawnee environment, calls
`posix_spawnp`, throws on a spawn error before touching the tracked-process
list, and records the new pid on success.  The outcome of `posix_spawnp` is an
input of the model: `none` means success producing `newPid`, `some e` means
failure with error code `e`. -/

/-- The program, argument vector and environment handed to `posix_spawnp`. -/
structure SpawnCall where
  program : String
  argv : List (Option String)
  env : List (Option String)
  deriving DecidableEq, Repr

/-- The observable outcome of one call to `process_context::execute`: what was
passed to `posix_spawnp`, the tracked-process list afterwards, and whether the
call threw a `std::system_error`. -/
structure ExecuteOutcome where
  call : SpawnCall
  tracked : List Nat
  threw : Bool
  deriving DecidableEq, Repr

/-- Model of `process_context::execute`.  `tracked` is the registry's
tracked-process list on entry, `parentEnv` the current process's environment,
`selfFilename` this executable's absolute path (`this_process::filename()`),
`serializedMessage` the serialized active message, and `spawnError` the result
of `posix_spawnp` (`none` = success spawning `newPid`). -/
def process_context_execute (tracked : List Nat) (parentEnv : List String)
    (launcherProgram : String) (launcherArgv : List String)
    (selfFilename : String) (serializedMessage : String)
    (spawnError : Option Nat) (newPid : Nat) : ExecuteOutcome :=
  let spawneeEnvironment := set_variable parentEnv bootstrapVarName serializedMessage
  let args : List (Option String) := launcherArgv.map some ++ [some selfFilename, none]
  let call : SpawnCall :=
    { program := launcherProgram, argv := args, env := environment_view spawneeEnvironment }
  match spawnError with
  | some _ => { call := call, tracked := tracked, threw := true }
  | none => { call := call, tracked := tracked ++ [newPid], threw := false }

/-! ### Process group registry: tracking and reaping
Model of the registry state across a sequence of operations:
`process_context::execute` appends a pid on success and leaves the list
unchanged on failure; `process_context::wait` (lines 195-206) calls `waitpid`
once for each tracked pid and then clears the list; the destructor
(lines 109-112) runs `wait`.  `reaped` records every `waitpid` call made, in
order. -/

/-- One registry operation: a successful spawn tracking `pid`, a failed spawn,
or a call to `wait`. -/
inductive RegOp where
  | spawnOk (pid : Nat)
  | spawnFail
  | wait
  deriving DecidableEq, Repr

/-- Registry state: the tracked-process list and the history of `waitpid`
calls performed so far. -/
structure RegState where
  tracked : List Nat
  reaped : List Nat
  deriving DecidableEq, Repr

/-- The registry state when a `process_context` is constructed. -/
def initRegState : RegState := { tracked := [], reaped := [] }

/-- One step of the registry. -/
def regStep (st : RegState) : RegOp → RegState
  | .spawnOk pid => { st with tracked := st.tracked ++ [pid] }
  | .spawnFail => st
  | .wait => { tracked := [], reaped := st.reaped ++ st.tracked }

/-- Run a sequence of registry operations. -/
def regRun (st : RegState) : List RegOp → RegState
  | [] => st
  | op :: ops => regRun (regStep st op) ops

/-- The destructor `~process_context` runs `wait`. -/
def registryTeardown (st : RegState) : RegState := regStep st .wait

/-- The pids of the successful spawns in an operation sequence, in order. -/
def spawnedPids : List RegOp → List Nat
  | [] => []
  | .spawnOk pid :: ops => pid :: spawnedPids ops
  | .spawnFail :: ops => spawnedPids ops
  | .wait :: ops => spawnedPids ops

/-! ### Process bootstrap
Model of `execute_active_message_before_main_if` (new_process_executor.hpp,
lines 301-316): at static-initialization time, before `main`, the constructor
reads `EXECUTE_ACTIVE_MESSAGE_BEFORE_MAIN`; if set it decodes the value as an
active message, activates it, and calls `std::exit(EXIT_SUCCESS)`; otherwise
it does nothing and startup proceeds to `main`.  An active message is modelled
by its serialized string; `activated` lists the messages activated, in
order. -/

/-- What process startup does: either it diverted to active-message execution
and exited with `exitStatus` after activating `activated`, or it reached the
ordinary entry point `main`. -/
inductive StartupOutcome where
  | divertedAndExited (activated : List String) (exitStatus : Nat)
  | reachedMain
  deriving DecidableEq, Repr

/-- Model of `execute_active_message_before_main_if`, as a function of the
value of the bootstrap environment variable (`none` = unset). -/
def execute_active_message_before_main_if (bootstrapVar : Option String) :
    StartupOutcome :=
  match bootstrapVar with
  | some serialized => .divertedAndExited [serialized] 0
  | none => .reachedMain

/-! ### Process group registry: `twoway_execute`
Model of `process_context::twoway_execute` (new_process_executor.hpp, lines
153-193) and the wrapper `invoke_and_write_result` (lines 209-244) as event
traces in program order.  `twoway_execute` creates a pipe, wraps the user
callable so that it writes its result through a promise bound to the pipe's
write end and then closes that end, marks the read end close-on-exec before
spawning, spawns the wrapped callable, closes the write end in the parent, and
returns a future bound to the read end. -/

/-- Events performed by `process_context::twoway_execute` in the parent. -/
inductive PipeEvent where
  | createPipe (readEnd writeEnd : Nat)
  | setCloseOnExec (fd : Nat)
  | spawnWrapped (promiseFd : Nat)
  | closeFd (fd : Nat)
  | returnFutureBoundTo (fd : Nat)
  deriving DecidableEq, Repr

/-- The event trace of `process_context::twoway_execute`, given the two file
descriptors produced by `pipe()`. -/
def twoway_execute_trace (readEnd writeEnd : Nat) : List PipeEvent :=
  [.createPipe readEnd writeEnd,
   .setCloseOnExec readEnd,
   .spawnWrapped writeEnd,
   .closeFd writeEnd,
   .returnFutureBoundTo readEnd]

/-- Events performed by `invoke_and_write_result::operator()` in the spawned
process; `promiseSetValue` carries the descriptor of the bound promise and the
value written through it. -/
inductive AdapterEvent (α : Type) where
  | invokeUserFunction
  | promiseSetValue (fd : Nat) (value : α)
  | closeFd (fd : Nat)
  deriving DecidableEq, Repr

/-- The event trace of `invoke_and_write_result{f, fd}::operator()`: invoke
`f`, write its result through a promise bound to `fd`, close `fd`. -/
def invoke_and_write_result (f : Unit → α) (fd : Nat) : List (AdapterEvent α) :=
  [.invokeUserFunction, .promiseSetValue fd (f ()), .closeFd fd]

/-! ### Remote memory: `remote_memory_accessor` and `remote_ptr`
Model of remote_ptr.hpp.  The distributed memory is a byte store indexed by
processing element and address.  `shmem_getmem`/`shmem_putmem` are the
one-sided transport primitives; a C++ type `T` is modelled by its size in
bytes, its byte encoding, and its trivially-copyable flag.  Every operation
also reports the transport events it performs. -/

/-- The distributed memory: each processing element's byte store. -/
abbrev World : Type := Nat → Nat → Nat

/-- Model of a C++ type `T` as the remote accessor sees it: `size` is
`sizeof(T)`, `encode` its object representation, `decode` reconstitutes a
value from bytes. -/
structure TypeModel (α : Type) where
  size : Nat
  encode : α → List Nat
  decode : List Nat → α
  triviallyCopyable : Bool
  encode_length : ∀ a, (encode a).length = size

/-- One one-sided transport operation, with its target processing element,
address, and transfer size in bytes. -/
inductive TransportEvent where
  | get (pe sourceAddr nbytes : Nat)
  | put (pe destAddr nbytes : Nat)
  deriving DecidableEq, Repr

/-- Model of `shmem_getmem`: read `nbytes` bytes starting at address `source`
of processing element `pe`. -/
def shmem_getmem (w : World) (source nbytes pe : Nat) : List Nat :=
  (List.range nbytes).map fun i => w pe (source + i)

/-- Model of `shmem_putmem`: write `bytes` starting at address `dest` of
processing element `pe`, leaving every other byte unchanged. -/
def shmem_putmem (w : World) (dest : Nat) (bytes : List Nat) (pe : Nat) : World :=
  fun p a =>
    if p = pe ∧ dest ≤ a ∧ a < dest + bytes.length then bytes.getD (a - dest) 0
    else w p a

/-- Model of `remote_memory_accessor` (remote_ptr.hpp, lines 36-68): it holds
only the target processing element. -/
structure remote_memory_accessor where
  processing_element : Nat
  deriving DecidableEq, Repr

/-- Model of `remote_memory_accessor::load`: a one-sided read of `T.size`
bytes from `addr` on the target processing element into a freshly constructed
local value, together with the transport events performed. -/
def remote_memory_accessor.load (T : TypeModel α) (acc : remote_memory_accessor)
    (w : World) (addr : Nat) : α × List TransportEvent :=
  (T.decode (shmem_getmem w addr T.size acc.processing_element),
   [.get acc.processing_element addr T.size])

/-- Model of `remote_memory_accessor::store`: a one-sided write of `value`'s
`T.size` bytes to `addr` on the target processing element; the C++ overload
participates only when `T` is trivially copyable, which the model demands as
a hypothesis. -/
def remote_memory_accessor.store (T : TypeModel α) (acc : remote_memory_accessor)
    (w : World) (addr : Nat) (value : α)
    (_h : T.triviallyCopyable = true) : World × List TransportEvent :=
  (shmem_putmem w addr (T.encode value) acc.processing_element,
   [.put acc.processing_element addr T.size])

/-- Model of `remote_ptr<T>` (remote_ptr.hpp, lines 70-80): the recorded
address and accessor. -/
structure remote_ptr (α : Type) where
  address : Nat
  accessor : remote_memory_accessor
  deriving DecidableEq, Repr

/-- Model of the `remote_ptr<T>(address, pe)` constructor: it records the
pair and performs no transport. -/
def mk_remote_ptr (α : Type) (address pe : Nat) :
    remote_ptr α × List TransportEvent :=
  ({ address := address, accessor := { processing_element := pe } }, [])

/-- A one-byte type used to instantiate the remote-memory model on a
concrete input. -/
def natByteModel : TypeModel Nat where
  size := 1
  encode a := [a]
  decode bytes := bytes.getD 0 0
  triviallyCopyable := true
  encode_length _ := rfl

/-! ### Bulk one-way execution
Model of `bulk_oneway_functor::operator()` (shmem_executor.hpp, lines 70-106)
and `synchronize_and_destroy_shared_parameter_if` (lines 53-68) as the event
trace one processing element of the group performs, in program order.
`nontrivialDestructor` says whether the shared-parameter type has a
non-trivial destructor (the `__REQUIRES` dispatch between the two overloads of
`synchronize_and_destroy_shared_parameter_if`). -/

/-- The events one processing element performs during a one-way bulk
invocation. -/
inductive OnewayEvent where
  | shmemInit
  | constructSharedParameter
  | barrier
  | formRemotePointer
  | runUserFunction
  | destroySharedParameter
  | shmemFinalize
  deriving DecidableEq, Repr

/-- The event trace of `bulk_oneway_functor::operator()` on the processing
element of rank `rank`. -/
def bulk_oneway_trace (rank : Nat) (nontrivialDestructor : Bool) :
    List OnewayEvent :=
  [.shmemInit]
  ++ (if rank = 0 then [.constructSharedParameter] else [])
  ++ [.barrier, .formRemotePointer, .runUserFunction]
  ++ (if nontrivialDestructor then
        [.barrier] ++ (if rank = 0 then [.destroySharedParameter] else [])
      else [])
  ++ [.shmemFinalize]

/-! ### `cooperative_any`'s function-local static contribution
Model of the per-process static state of
`twoway_bulk_execute_functor::cooperative_any` (shmem_executor.hpp, lines
176-207).  The line `static int symmetric_value = value;` runs its
initializer only on the first call in the process; every later call reuses
the stored value, so the contribution a process feeds into
`shmem_int_or_to_all` is the first call's argument. -/

/-- The per-process static state of `cooperative_any`: whether the
function-local static `symmetric_value` has been initialized yet, and the
value it holds. -/
structure CoopStaticState where
  seeded : Bool
  symmetric_value : Bool
  deriving DecidableEq, Repr

/-- The static state before the first call to `cooperative_any` in a
process. -/
def freshCoopState : CoopStaticState := { seeded := false, symmetric_value := false }

/-- One call to `cooperative_any` in a process: returns the new static state
and the contribution this call feeds into the OR-reduction. -/
def cooperative_any_contribution (st : CoopStaticState) (value : Bool) :
    CoopStaticState × Bool :=
  if st.seeded then (st, st.symmetric_value)
  else ({ seeded := true, symmetric_value := value }, value)

/-- The contributions of a sequence of `cooperative_any` calls made in one
process, starting from static state `st`. -/
def cooperative_any_contributions (st : CoopStaticState) : List Bool → List Bool
  | [] => []
  | v :: vs =>
      let r := cooperative_any_contribution st v
      r.2 :: cooperative_any_contributions r.1 vs

/-! ### Two-way execution on a processing element
Model of `twoway_bulk_execute_functor::operator()` (shmem_executor.hpp, lines
209-259) as the event trace one processing element performs.  `failed pe`
says whether the user function throws on processing element `pe`; the local
`catch(...)` turns that into the boolean fed to `cooperative_any`, whose
result is the OR of every group member's flag.  Only rank 0 then connects the
socket and fulfills the promise: `set_exception` with the fixed description
when the reduction found a failure, `set_value` with the remotely read result
otherwise.  `result` stands for the value the remote load `*remote_result`
yields on rank 0. -/

/-- Whether at least one of the `n` processing elements' user functions
failed: the value `shmem_int_or_to_all` computes over the per-element flags. -/
def anyFailed (n : Nat) (failed : Nat → Bool) : Bool :=
  (List.range n).any failed

/-- The description string passed to `interprocess_exception` by rank 0. -/
def interprocessExceptionMessage : String :=
  "Exception(s) encountered in execution agent(s)."

/-- The events one processing element performs during a two-way bulk
invocation. -/
inductive TwowayEvent (α : Type) where
  | runUserFunction
  | catchFailure
  | orReduction (contribution : Bool)
  | connectSocket
  | setException (description : String)
  | setValue (result : α)
  deriving DecidableEq, Repr

/-- The event trace of `twoway_bulk_execute_functor::operator()` on the
processing element of rank `rank`, in a group of `n` elements. -/
def twoway_pe_trace (n : Nat) (failed : Nat → Bool) (result : α) (rank : Nat) :
    List (TwowayEvent α) :=
  [.runUserFunction]
  ++ (if failed rank then [.catchFailure] else [])
  ++ [.orReduction (failed rank)]
  ++ (if rank = 0 then
        [.connectSocket]
        ++ (if anyFailed n failed then [.setException interprocessExceptionMessage]
            else [.setValue result])
      else [])

/-- Whether an event fulfills the promise (`set_exception` or `set_value`). -/
def isPromiseFulfillment : TwowayEvent α → Bool
  | .setException _ => true
  | .setValue _ => true
  | _ => false

/-- Whether an event is participation in the collective OR-reduction. -/
def isOrReduction : TwowayEvent α → Bool
  | .orReduction _ => true
  | _ => false

/-- Whether an event is either the OR-reduction or a promise fulfillment;
filtering a trace with this shows their relative order. -/
def isReductionOrFulfillment (e : TwowayEvent α) : Bool :=
  isOrReduction e || isPromiseFulfillment e

/-! ### Two-way execution on the launching host
Model of `shmem_executor::twoway_bulk_execute` (shmem_executor.hpp, lines
275-296) as the event trace the launching process performs, in program order:
`gethostname`, then `bulk_execute` (which spawns the group of `n` processing
elements through `oshrun`), then construction of `read_socket(port)` (the
listening socket the returned future accepts on), then the return of the
future bound to that socket. -/

/-- The fixed port used by `twoway_bulk_execute` (`int port = 71342;`). -/
def shmem_twoway_port : Nat := 71342

/-- The events the launching process performs in `twoway_bulk_execute`. -/
inductive HostEvent where
  | getHostName
  | spawnPEGroup (n : Nat)
  | openListeningSocket (port : Nat)
  | returnFutureAccepting (port : Nat)
  deriving DecidableEq, Repr

/-- The event trace of `shmem_executor::twoway_bulk_execute` for a group of
`n` processing elements. -/
def twoway_bulk_execute_host_trace (n : Nat) : List HostEvent :=
  [.getHostName,
   .spawnPEGroup n,
   .openListeningSocket shmem_twoway_port,
   .returnFutureAccepting shmem_twoway_port]

/-! ### Helper lemmas -/

/-- When no entry of `env` binds `varName`, `set_variable` appends a fresh
binding at the end and leaves every entry unchanged. -/
theorem set_variable_of_not_bound (env : List String) (varName value : String)
    (h : ∀ e ∈ env, bindsVariable varName e = false) :
    set_variable env varName value = env ++ [varName ++ "=" ++ value] := by
  induction env with
  | nil => rfl
  | cons e rest ih =>
      have he : bindsVariable varName e = false := h e (List.mem_cons_self e rest)
      simp only [set_variable, he, Bool.false_eq_true, if_false, List.cons_append,
        List.cons.injEq, true_and]
      exact ih fun e' he' => h e' (List.mem_cons_of_mem e he')

/-- When `env` splits as `pre ++ e :: post` where `e` is the first entry
binding `varName`, `set_variable` replaces exactly that entry and leaves
`pre` and `post` unchanged. -/
theorem set_variable_first_bound (pre post : List String) (e varName value : String)
    (hpre : ∀ e' ∈ pre, bindsVariable varName e' = false)
    (he : bindsVariable varName e = true) :
    set_variable (pre ++ e :: post) varName value
      = pre ++ (varName ++ "=" ++ value) :: post := by
  induction pre with
  | nil => simp [set_variable, he]
  | cons p rest ih =>
      have hp : bindsVariable varName p = false := hpre p (List.mem_cons_self p rest)
      simp only [List.cons_append, set_variable, hp, Bool.false_eq_true, if_false,
        List.cons.injEq, true_and]
      exact ih fun e' he' => hpre e' (List.mem_cons_of_mem p he')

/-- Invariant of the registry: the `waitpid` history followed by the tracked
list always equals the starting history and tracking followed by the pids
spawned since. -/
theorem regRun_reaped_append_tracked (ops : List RegOp) :
    ∀ st : RegState,
      (regRun st ops).reaped ++ (regRun st ops).tracked
        = st.reaped ++ st.tracked ++ spawnedPids ops := by
  induction ops with
  | nil => intro st; simp [regRun, spawnedPids]
  | cons op ops ih =>
      intro st
      cases op with
      | spawnOk pid => simp [regRun, regStep, spawnedPids, ih]
      | spawnFail => simp [regRun, regStep, spawnedPids, ih]
      | wait => simp [regRun, regStep, spawnedPids, ih]

/-- A failed spawn leaves the registry state untouched, so the remaining
operations run exactly as they would have without it. -/
theorem regRun_spawnFail (st : RegState) (ops : List RegOp) :
    regRun st (.spawnFail :: ops) = regRun st ops := rfl

/-- Once the function-local static of `cooperative_any` is initialized to
`b`, every later call contributes `b`, whatever its argument. -/
theorem cooperative_any_contributions_of_seeded (vs : List Bool) (b : Bool) :
    cooperative_any_contributions { seeded := true, symmetric_value := b } vs
      = List.replicate vs.length b := by
  induction vs with
  | nil => rfl
  | cons v vs ih =>
      simp [cooperative_any_contributions, cooperative_any_contribution,
        List.replicate_succ, ih]

/-! ### The claims -/

/-- C3: for every call to the registry's spawn operation
(`process_context::execute`), the argument vector handed to the new OS
process is the launcher's arguments in order, then this executable's own
absolute path, then a null terminator; and the environment handed to it is
the parent's environment with `EXECUTE_ACTIVE_MESSAGE_BEFORE_MAIN` bound to
the serialized active message — replacing the first existing binding of that
variable when one is present, appending the binding otherwise, and leaving
every other entry unchanged. -/
theorem execute_argument_vector_and_environment
    (tracked : List Nat) (parentEnv : List String) (launcherProgram : String)
    (launcherArgv : List String) (selfFilename serializedMessage : String)
    (spawnError : Option Nat) (newPid : Nat) :
    ((process_context_execute tracked parentEnv launcherProgram launcherArgv
        selfFilename serializedMessage spawnError newPid).call.argv
      = launcherArgv.map some ++ [some selfFilename, none])
    ∧ ((process_context_execute tracked parentEnv launcherProgram launcherArgv
        selfFilename serializedMessage spawnError newPid).call.env
      = environment_view
          (set_variable parentEnv bootstrapVarName serializedMessage))
    ∧ ((∀ e ∈ parentEnv, bindsVariable bootstrapVarName e = false) →
        (process_context_execute tracked parentEnv launcherProgram launcherArgv
          selfFilename serializedMessage spawnError newPid).call.env
        = environment_view
            (parentEnv ++ [bootstrapVarName ++ "=" ++ serializedMessage]))
    ∧ (∀ pre post e, parentEnv = pre ++ e :: post →
        (∀ e' ∈ pre, bindsVariable bootstrapVarName e' = false) →
        bindsVariable bootstrapVarName e = true →
        (process_context_execute tracked parentEnv launcherProgram launcherArgv
          selfFilename serializedMessage spawnError newPid).call.env
        = environment_view
            (pre ++ (bootstrapVarName ++ "=" ++ serializedMessage) :: post)) := by
  refine ⟨?_, ?_, ?_, ?_⟩
  · cases spawnError <;> rfl
  · cases spawnError <;> rfl
  · intro h
    have hv := set_variable_of_not_bound parentEnv bootstrapVarName serializedMessage h
    cases spawnError <;> simp [process_context_execute, hv]
  · intro pre post e hsplit hpre he
    subst hsplit
    have hv := set_variable_first_bound pre post e bootstrapVarName serializedMessage hpre he
    cases spawnError <;> simp [process_context_execute, hv]

/-- Witness for C3 at a concrete input: with an empty parent environment the
spawnee environment is exactly the fresh bootstrap binding followed by the
terminating null. -/
theorem execute_argument_vector_and_environment_witness :
    (process_context_execute [] [] "oshrun" ["oshrun", "-n", "2"]
        "/usr/local/bin/demo" "MSG" none 42).call.env
      = environment_view ([] ++ [bootstrapVarName ++ "=" ++ "MSG"]) :=
  (execute_argument_vector_and_environment [] [] "oshrun" ["oshrun", "-n", "2"]
      "/usr/local/bin/demo" "MSG" none 42).2.2.1 (by simp)

/-- C4: if `posix_spawnp` reports an error, `process_context::execute` throws
synchronously and the tracked-process list is unchanged, so the registry
behaves for all later operations exactly as if the failed spawn had never
happened. -/
theorem execute_spawn_failure_leaves_registry_unchanged
    (tracked : List Nat) (parentEnv : List String) (launcherProgram : String)
    (launcherArgv : List String) (selfFilename serializedMessage : String)
    (errorCode newPid : Nat) (st : RegState) (ops : List RegOp) :
    ((process_context_execute tracked parentEnv launcherProgram launcherArgv
        selfFilename serializedMessage (some errorCode) newPid).threw = true)
    ∧ ((process_context_execute tracked parentEnv launcherProgram launcherArgv
        selfFilename serializedMessage (some errorCode) newPid).tracked = tracked)
    ∧ (regRun st (.spawnFail :: ops) = regRun st ops) := by
  exact ⟨rfl, rfl, regRun_spawnFail st ops⟩

/-- C7: at startup, before `main`: when `EXECUTE_ACTIVE_MESSAGE_BEFORE_MAIN`
is set, the process decodes and activates the message exactly once and exits
with success status, never reaching `main`; when it is unset, startup reaches
`main` unchanged. -/
theorem bootstrap_divert_or_noop :
    (∀ serialized : String,
        execute_active_message_before_main_if (some serialized)
          = .divertedAndExited [serialized] 0)
    ∧ execute_active_message_before_main_if none = .reachedMain :=
  ⟨fun _ => rfl, rfl⟩

/-- C9: across any sequence of spawn and wait operations, teardown (which
runs `wait`) leaves no tracked process, and the full `waitpid` history equals
the list of successfully spawned pids — each tracked process is reaped
exactly once, none is waited twice, none is left unreaped. -/
theorem registry_reaps_each_process_exactly_once (ops : List RegOp) :
    ((registryTeardown (regRun initRegState ops)).tracked = [])
    ∧ ((registryTeardown (regRun initRegState ops)).reaped = spawnedPids ops)
    ∧ (∀ pid : Nat,
        (registryTeardown (regRun initRegState ops)).reaped.count pid
          = (spawnedPids ops).count pid) := by
  have h := regRun_reaped_append_tracked ops initRegState
  refine ⟨rfl, ?_, ?_⟩
  · simpa [registryTeardown, regStep, initRegState] using h
  · intro pid
    have : (registryTeardown (regRun initRegState ops)).reaped = spawnedPids ops := by
      simpa [registryTeardown, regStep, initRegState] using h
    rw [this]

/-- C10: within one process, the value `cooperative_any` feeds into the
OR-reduction is always the argument of the first call made in that process:
the first call seeds the function-local static, and every later call ignores
its own argument and contributes the seeded value again. -/
theorem cooperative_any_contribution_is_first_call (v : Bool) (vs : List Bool) :
    cooperative_any_contributions freshCoopState (v :: vs)
      = List.replicate (vs.length + 1) v := by
  simp [cooperative_any_contributions, cooperative_any_contribution, freshCoopState,
    List.replicate_succ, cooperative_any_contributions_of_seeded]

/-- C5: in every bulk one-way invocation the shared parameter is constructed
exactly once and only by rank 0, before the barrier that every processing
element passes before forming the remote pointer or running the user
function; it is destroyed at most once, only by rank 0, only after a second
barrier that every element reaches after finishing the user function, and
only when the shared-parameter type has a non-trivial destructor — for
trivially destructible types there is no destruction and no second
barrier. -/
theorem bulk_oneway_shared_parameter_lifecycle (rank : Nat) (nd : Bool) :
    ((bulk_oneway_trace rank nd).count .constructSharedParameter
        = if rank = 0 then 1 else 0)
    ∧ ((bulk_oneway_trace rank nd).count .destroySharedParameter
        = if nd = true ∧ rank = 0 then 1 else 0)
    ∧ (rank = 0 →
        List.Sublist [.constructSharedParameter, .barrier]
          (bulk_oneway_trace rank nd))
    ∧ List.Sublist [.barrier, .formRemotePointer] (bulk_oneway_trace rank nd)
    ∧ List.Sublist [.barrier, .runUserFunction] (bulk_oneway_trace rank nd)
    ∧ (nd = true →
        List.Sublist [.runUserFunction, .barrier] (bulk_oneway_trace rank nd))
    ∧ (nd = true → rank = 0 →
        List.Sublist [.runUserFunction, .barrier, .destroySharedParameter]
          (bulk_oneway_trace rank nd))
    ∧ (nd = false →
        (bulk_oneway_trace rank nd).count .barrier = 1
          ∧ (bulk_oneway_trace rank nd).count .destroySharedParameter = 0) := by
  by_cases h : rank = 0
  · subst h; cases nd <;> decide
  · cases nd <;> (simp [bulk_oneway_trace, h]; try decide)

/-- Witness for C5 at rank 0 with a non-trivially-destructible shared type:
the destruction happens after the second barrier, which follows the user
function. -/
theorem bulk_oneway_shared_parameter_lifecycle_witness :
    List.Sublist
      [OnewayEvent.runUserFunction, OnewayEvent.barrier,
        OnewayEvent.destroySharedParameter]
      (bulk_oneway_trace 0 true) :=
  (bulk_oneway_shared_parameter_lifecycle 0 true).2.2.2.2.2.2.1 rfl rfl

/-- C6: `load` performs a one-sided read of exactly `sizeof(T)` bytes from
the recorded address on the target processing element (its result depends on
nothing but those bytes) into a fresh local value; `store`, available only
for trivially copyable `T`, performs a one-sided write of exactly the
`sizeof(T)` bytes of the value at that address, leaving every other byte of
every processing element unchanged; constructing a `remote_ptr` records the
(address, processing element) pair and performs no transport. -/
theorem remote_memory_access_spec (α : Type) (T : TypeModel α) (pe : Nat)
    (w w2 : World) (addr : Nat) (value : α) (h : T.triviallyCopyable = true) :
    ((remote_memory_accessor.load T ⟨pe⟩ w addr).2 = [.get pe addr T.size])
    ∧ ((remote_memory_accessor.load T ⟨pe⟩ w addr).1
        = T.decode (shmem_getmem w addr T.size pe))
    ∧ ((shmem_getmem w addr T.size pe).length = T.size)
    ∧ ((∀ i, i < T.size → w pe (addr + i) = w2 pe (addr + i)) →
        (remote_memory_accessor.load T ⟨pe⟩ w addr).1
          = (remote_memory_accessor.load T ⟨pe⟩ w2 addr).1)
    ∧ (∀ i, i < T.size →
        (remote_memory_accessor.store T ⟨pe⟩ w addr value h).1 pe (addr + i)
          = (T.encode value).getD i 0)
    ∧ (∀ p a, p ≠ pe ∨ a < addr ∨ addr + T.size ≤ a →
        (remote_memory_accessor.store T ⟨pe⟩ w addr value h).1 p a = w p a)
    ∧ ((remote_memory_accessor.store T ⟨pe⟩ w addr value h).2
        = [.put pe addr T.size])
    ∧ ((mk_remote_ptr α addr pe).1.address = addr
        ∧ (mk_remote_ptr α addr pe).1.accessor.processing_element = pe
        ∧ (mk_remote_ptr α addr pe).2 = []) := by
  refine ⟨rfl, rfl, by simp [shmem_getmem], ?_, ?_, ?_, rfl, rfl, rfl, rfl⟩
  · intro hw
    simp only [remote_memory_accessor.load, shmem_getmem]
    congr 1
    apply List.map_congr_left
    intro i hi
    exact hw i (List.mem_range.mp hi)
  · intro i hi
    have hlen := T.encode_length value
    simp [remote_memory_accessor.store, shmem_putmem, hlen, hi,
      Nat.add_sub_cancel_left]
  · intro p a hcase
    have hlen := T.encode_length value
    simp only [remote_memory_accessor.store, shmem_putmem]
    rw [if_neg]
    rintro ⟨hp, hle, hlt⟩
    rw [hlen] at hlt
    rcases hcase with h1 | h2 | h3
    · exact h1 hp
    · omega
    · omega

/-- Witness for C6 at a concrete input: storing the value 42 at address 5 of
processing element 1 makes that byte 42. -/
theorem remote_memory_access_spec_witness :
    (remote_memory_accessor.store natByteModel
        { processing_element := 1 } (fun _ _ => 0) 5 42 rfl).1 1 5 = 42 :=
  (remote_memory_access_spec Nat natByteModel 1 (fun _ _ => 0) (fun _ _ => 0)
      5 42 rfl).2.2.2.2.1 0 (by decide)

/-- C8: `twoway_execute` creates a fresh pipe, marks its read end
close-on-exec before spawning (so the spawned process does not inherit it),
spawns the user callable wrapped so that the wrapper invokes it, then writes
its result through a promise bound to the pipe's write end, then closes the
write end; the parent closes the write end after spawning and returns a
future bound to the pipe's read end. -/
theorem twoway_execute_pipe_protocol (α : Type) (readEnd writeEnd : Nat)
    (f : Unit → α) :
    ((twoway_execute_trace readEnd writeEnd).head?
        = some (.createPipe readEnd writeEnd))
    ∧ List.Sublist [.setCloseOnExec readEnd, .spawnWrapped writeEnd]
        (twoway_execute_trace readEnd writeEnd)
    ∧ List.Sublist [.spawnWrapped writeEnd, .closeFd writeEnd]
        (twoway_execute_trace readEnd writeEnd)
    ∧ ((twoway_execute_trace readEnd writeEnd).getLast?
        = some (.returnFutureBoundTo readEnd))
    ∧ (invoke_and_write_result f writeEnd
        = [.invokeUserFunction, .promiseSetValue writeEnd (f ()),
            .closeFd writeEnd]) := by
  refine ⟨rfl, ?_, ?_, rfl, rfl⟩
  · exact List.IsInfix.sublist
      ⟨[.createPipe readEnd writeEnd],
        [.closeFd writeEnd, .returnFutureBoundTo readEnd], rfl⟩
  · exact List.IsInfix.sublist
      ⟨[.createPipe readEnd writeEnd, .setCloseOnExec readEnd],
        [.returnFutureBoundTo readEnd], rfl⟩

/-- C1: in a two-way group execution over `n` processing elements, rank 0
fulfills the promise exactly once, with `set_exception` (carrying the generic
description) exactly when at least one element's user function failed and
with `set_value` of the remotely read result otherwise; no other rank
performs any fulfillment; every rank contributes its own locally caught
failure flag to the OR-reduction exactly once; and on rank 0 the reduction
comes before the fulfillment. -/
theorem twoway_promise_fulfillment_exactly_once (α : Type) (n : Nat)
    (failed : Nat → Bool) (result : α) (rank : Nat) (hrank : rank < n) :
    ((twoway_pe_trace n failed result rank).filter isPromiseFulfillment
      = if rank = 0 then
          [if anyFailed n failed = true
            then TwowayEvent.setException interprocessExceptionMessage
            else TwowayEvent.setValue result]
        else [])
    ∧ (anyFailed n failed = true ↔ ∃ pe, pe < n ∧ failed pe = true)
    ∧ ((twoway_pe_trace n failed result rank).filter isOrReduction
        = [.orReduction (failed rank)])
    ∧ (rank = 0 →
        (twoway_pe_trace n failed result rank).filter isReductionOrFulfillment
          = [.orReduction (failed 0),
              if anyFailed n failed = true
                then TwowayEvent.setException interprocessExceptionMessage
                else TwowayEvent.setValue result]) := by
  refine ⟨?_, ?_, ?_, ?_⟩
  · by_cases hr : rank = 0 <;> by_cases hf : anyFailed n failed = true <;>
      by_cases hc : failed rank = true <;>
      simp [twoway_pe_trace, isPromiseFulfillment, hr, hf, hc]
  · simp [anyFailed, List.any_eq_true, List.mem_range]
  · by_cases hr : rank = 0 <;> by_cases hf : anyFailed n failed = true <;>
      by_cases hc : failed rank = true <;>
      simp [twoway_pe_trace, isOrReduction, hr, hf, hc]
  · intro hr
    subst hr
    by_cases hf : anyFailed n failed = true <;> by_cases hc : failed 0 = true <;>
      simp [twoway_pe_trace, isReductionOrFulfillment, isOrReduction,
        isPromiseFulfillment, hf, hc]

/-- Witness for C1 at a concrete input: in a group of two elements where
exactly rank 1 fails, rank 0's only fulfillment is `set_exception` with the
generic description. -/
theorem twoway_promise_fulfillment_exactly_once_witness :
    (twoway_pe_trace 2 (fun pe => pe == 1) (37 : Nat) 0).filter
        isPromiseFulfillment
      = [TwowayEvent.setException interprocessExceptionMessage] := by
  have h := (twoway_promise_fulfillment_exactly_once Nat 2 (fun pe => pe == 1)
    (37 : Nat) 0 (by decide)).1
  simpa using h

/-- C2 counterexample: in the trace of `twoway_bulk_execute` for a group of
two processing elements, the listening socket is not opened before the group
is spawned — `bulk_execute` runs first and `read_socket` is constructed
afterwards. -/
theorem twoway_listen_not_before_spawn :
    ¬ List.Sublist
        [HostEvent.openListeningSocket 71342, HostEvent.spawnPEGroup 2]
        (twoway_bulk_execute_host_trace 2) := by
  decide

/-- C2 as amended: `twoway_bulk_execute` spawns the PE group and then opens
the listening socket on the fixed port 71342 on the launching host, returning
a Future bound to accepting one connection on that socket. -/
theorem twoway_spawn_then_listen (n : Nat) :
    shmem_twoway_port = 71342
    ∧ List.Sublist
        [HostEvent.spawnPEGroup n, HostEvent.openListeningSocket 71342]
        (twoway_bulk_execute_host_trace n)
    ∧ ((twoway_bulk_execute_host_trace n).getLast?
        = some (.returnFutureAccepting 71342)) := by
  refine ⟨rfl, ?_, rfl⟩
  exact List.IsInfix.sublist
    ⟨[.getHostName], [.returnFutureAccepting shmem_twoway_port], rfl⟩

end ShmemSpec
